import Mathlib

/-!
Verification development for the SERP aggregation and analysis engine of
`torino-seo-audit` (file `agents/serp_analyzer.py`, class `SerpAnalyzerAgent`).

The Python analyzer consumes a list of SERP records (JSON-like dictionaries)
and produces one audit dictionary with brand-visibility, competitor,
geo, content-insight and SERP-feature sub-results plus an AI-insight field.

Shallow embedding conventions:
* a dictionary field that may be missing is an `Option`;
* the four organic-result string fields (`title`, `link`, `snippet`,
  `displayed_link`) may additionally be explicitly `null` in the JSON, which
  Python distinguishes from a missing key, so they are `Option (Option String)`
  (`none` = key missing, `some none` = key present with value `null`,
  `some (some s)` = string value);
* Python mean computations (ints divided by a length) are modelled in `ℚ`;
* the only statement in the analyzer that can raise on such input is
  `result.get("link", "").lower()` (a present-but-null link gives
  `None.lower()`), so `_analyze_brand_visibility` and `analyze_serp_batch`
  land in `Except String`; everything else is total;
* the OpenAI call inside `_generate_ai_insights` is an external collaborator
  and is passed in as a function `SampleData → Except String String`
  (success = the JSON text produced by the model, error = the exception
  message); the `try/except` around the call is embedded explicitly;
* `collections.Counter` / `defaultdict` are embedded as insertion-ordered
  association lists, matching CPython dict ordering, and
  `Counter.most_common(n)` as a stable descending sort by count followed by
  `take n` (CPython `heapq.nlargest` resolves ties toward earlier insertion,
  which is exactly a stable descending sort).
-/

/-! ## String utilities

`str.lower()` in the source is only ever applied before testing ASCII brand
keywords; `Char.toLower` (ASCII lowering) matches Python on every character of
the brand keywords.  `needle in hay` on Python strings is contiguous substring
containment. -/

/-- ASCII lowering of a string, character by character (models `str.lower()`
on the ASCII inputs relevant to the brand test). -/
def lowerChars (s : String) : String := String.mk (s.data.map Char.toLower)

/-- `startsWithChars n h` is true when `n` is an initial segment of `h`. -/
def startsWithChars : List Char → List Char → Bool
  | [], _ => true
  | _ :: _, [] => false
  | a :: as, b :: bs => a == b && startsWithChars as bs

/-- Contiguous substring containment on character lists (models Python
`needle in hay` for strings). -/
def hasSubstring (needle : List Char) : List Char → Bool
  | [] => needle.isEmpty
  | c :: rest => startsWithChars needle (c :: rest) || hasSubstring needle rest

/-- `substrOf needle hay` : Python `needle in hay` on strings. -/
def substrOf (needle hay : String) : Bool := hasSubstring needle.data hay.data

/-! ## URL domain extraction

Models `urllib.parse.urlparse(link).netloc`: strip a leading `scheme:`
(a nonempty run of scheme characters before the first colon), then, if the
remainder begins with `//`, the netloc is everything up to the next
`/`, `?` or `#`; otherwise it is empty. -/

def schemeChars : List Char :=
  "abcdefghijklmnopqrstuvwxyzABCDEFGHIJKLMNOPQRSTUVWXYZ0123456789+-.".data

/-- Drop a leading `scheme:` from a URL character list, as `urlparse` does. -/
def dropScheme (cs : List Char) : List Char :=
  match cs.findIdx? (fun c => c == ':') with
  | some i =>
    if 0 < i ∧ (cs.take i).all (fun c => decide (c ∈ schemeChars)) then
      cs.drop (i + 1)
    else cs
  | none => cs

/-- `urlparse(url).netloc`. -/
def netloc (url : String) : String :=
  match dropScheme url.data with
  | '/' :: '/' :: r =>
    String.mk (r.takeWhile (fun c => !(c == '/' || c == '?' || c == '#')))
  | _ => ""

/-! ## Data model (SERP records, §3 of the component's inputs) -/

/-- One organic search result inside a SERP record. -/
structure OrganicResult where
  position : Option Nat := none
  title : Option (Option String) := none
  link : Option (Option String) := none
  snippet : Option (Option String) := none
  displayed_link : Option (Option String) := none
  rich_snippet : Bool := false
deriving DecidableEq, Repr

/-- The `query_metadata` sub-dictionary of a SERP record. -/
structure QueryMetadata where
  language : Option String := none
  intent : Option String := none
deriving DecidableEq, Repr

/-- One SERP record, the unit of input of the analyzer.  `related_searches`
entries are kept as their `query` field (`none` when the key is missing),
`people_also_ask` entries as their `question` field, and `knowledge_graph`
as its truthiness, since the source reads nothing else of them. -/
structure Serp where
  query : String
  language : Option String := none
  location : Option String := none
  query_metadata : Option QueryMetadata := none
  organic_results : Option (List OrganicResult) := none
  related_searches : Option (List (Option String)) := none
  people_also_ask : Option (List (Option String)) := none
  knowledge_graph : Bool := false
deriving DecidableEq, Repr

/-- `serp.get("organic_results", [])`. -/
def orgList (s : Serp) : List OrganicResult := s.organic_results.getD []

/-- `result.get("position", 999)` : the 999 sentinel for a missing rank. -/
def rPos (r : OrganicResult) : Nat := r.position.getD 999

/-- `(d.get(k) or "").lower()` : a missing or null or empty field becomes
the empty string, then is lowered. -/
def lowerOf (f : Option (Option String)) : String := lowerChars (f.join.getD "")

/-- `result.get("link", "").lower()` : a missing link defaults to `""`, but a
present-but-null link is `None` and `None.lower()` raises `AttributeError`. -/
def linkLower (f : Option (Option String)) : Except String String :=
  match f with
  | none => .ok ""
  | some none => .error "AttributeError: NoneType object has no attribute lower"
  | some (some s) => .ok (lowerChars s)

/-- Truthiness of `result.get("link", "")` / `result.get("link")`:
the string value when the link is present, non-null and non-empty. -/
def truthyLink (f : Option (Option String)) : Option String :=
  match f.join with
  | some s => if s = "" then none else some s
  | none => none

/-- `serp.get("query_metadata", {}).get("language", "unknown")`. -/
def serpLanguage (s : Serp) : String :=
  ((s.query_metadata.getD {}).language).getD "unknown"

/-- `serp.get("query_metadata", {}).get("intent", "unknown")`. -/
def serpIntent (s : Serp) : String :=
  ((s.query_metadata.getD {}).intent).getD "unknown"

/-! ## Insertion-ordered counters (CPython `Counter` / `defaultdict`) -/

/-- `counter[k] += 1` on an insertion-ordered association list; a fresh key is
appended at the end (CPython dicts preserve first-insertion order). -/
def cincr {α : Type} [DecidableEq α] : List (α × Nat) → α → List (α × Nat)
  | [], k => [(k, 1)]
  | (a, n) :: rest, k =>
    if a = k then (a, n + 1) :: rest else (a, n) :: cincr rest k

/-- `positions[k].append(x)` on an insertion-ordered association list of
lists (`defaultdict(list)`). -/
def padd {α : Type} [DecidableEq α] : List (α × List Nat) → α → Nat → List (α × List Nat)
  | [], k, x => [(k, [x])]
  | (a, l) :: rest, k, x =>
    if a = k then (a, l ++ [x]) :: rest else (a, l) :: padd rest k x

/-- Lookup in an insertion-ordered counter. -/
def alookup {α : Type} [DecidableEq α] : List (α × Nat) → α → Option Nat
  | [], _ => none
  | (a, n) :: rest, k => if a = k then some n else alookup rest k

/-- Lookup in an insertion-ordered positions map, defaulting to `[]`. -/
def plookup {α : Type} [DecidableEq α] : List (α × List Nat) → α → List Nat
  | [], _ => []
  | (a, l) :: rest, k => if a = k then l else plookup rest k

/-- Sum of the multiplicities recorded in a counter. -/
def sumCounts {α : Type} (c : List (α × Nat)) : Nat := (c.map Prod.snd).sum

/-- Stable insertion (descending by count) used to model the sort underlying
`Counter.most_common`: the new element is placed after every element with a
strictly larger count and before the first element with a smaller-or-equal
count.  Elements are inserted right-to-left by `sortDesc`, so ties end up in
original (first-encounter) order. -/
def insertDesc {α : Type} (x : α × Nat) : List (α × Nat) → List (α × Nat)
  | [] => [x]
  | y :: ys => if x.2 < y.2 then y :: insertDesc x ys else x :: y :: ys

/-- Stable sort, descending by count. -/
def sortDesc {α : Type} (l : List (α × Nat)) : List (α × Nat) :=
  l.foldr insertDesc []

/-- `Counter.most_common(n)` : the `n` entries with the largest counts,
ties resolved toward earlier insertion. -/
def most_common {α : Type} (n : Nat) (c : List (α × Nat)) : List (α × Nat) :=
  (sortDesc c).take n

/-- `min(l)` on a nonempty Python list; the `[]` branch is unreachable in the
source (positions lists of tallied domains are never empty). -/
def listMin : List Nat → Nat
  | [] => 0
  | x :: xs => xs.foldl Nat.min x

/-- `max(l)` on a nonempty Python list; `[]` unreachable as for `listMin`. -/
def listMax : List Nat → Nat
  | [] => 0
  | x :: xs => xs.foldl Nat.max x

/-- The canonical embedding of a natural position into ℚ. -/
def natCastQ (n : Nat) : ℚ := n

/-- `sum(l) / len(l)` as an exact rational. -/
def listMeanQ (l : List Nat) : ℚ := (l.map natCastQ).sum / l.length

/-! ## Brand Visibility Analyzer (`_analyze_brand_visibility`) -/

/-- One entry of `urls_found`. -/
structure UrlFound where
  url : String
  query : String
  position : Nat
deriving DecidableEq, Repr

/-- The `visibility` dictionary.  `average_position` is the raw list of
matched positions the source accumulates; `average_position_value` is filled
in at the end of the analysis (`none` while accumulating). -/
structure BrandVisibility where
  total_appearances : Nat
  queries_with_brand : Nat
  average_position : List Nat
  top_3_appearances : Nat
  top_10_appearances : Nat
  urls_found : List UrlFound
  by_language : List (String × Nat)
  by_intent : List (String × Nat)
  average_position_value : Option ℚ
deriving DecidableEq, Repr

/-- The initial `visibility` dictionary. -/
def initVisibility : BrandVisibility :=
  { total_appearances := 0, queries_with_brand := 0, average_position := [],
    top_3_appearances := 0, top_10_appearances := 0, urls_found := [],
    by_language := [], by_intent := [], average_position_value := none }

/-- The configured brand keywords (note `"turismoTorino"` is compared against
lowered text and therefore can never match; it is kept verbatim). -/
def brand_keywords : List String := ["turismo torino", "turismoTorino", "turismotorino"]

/-- `any(brand in title or brand in link or brand in snippet or
brand in displayed_link for brand in brand_keywords)`. -/
def isBrandStrings (title link snippet displayed_link : String) : Bool :=
  brand_keywords.any (fun brand =>
    substrOf brand title || substrOf brand link || substrOf brand snippet ||
      substrOf brand displayed_link)

/-- Body of the inner `for result in serp.get("organic_results", [])` loop.
The sequential `+=`/`append` mutations of the source are written as one
record update; each field update mirrors one source statement. -/
def visResult (serp : Serp) (acc : BrandVisibility × Bool) (r : OrganicResult) :
    Except String (BrandVisibility × Bool) :=
  match linkLower r.link with
  | .error e => .error e
  | .ok link =>
    let v := acc.1
    if isBrandStrings (lowerOf r.title) link (lowerOf r.snippet) (lowerOf r.displayed_link) then
      let position := rPos r
      .ok ({ total_appearances := v.total_appearances + 1,
             queries_with_brand := v.queries_with_brand,
             average_position := v.average_position ++ [position],
             top_3_appearances := v.top_3_appearances + (if position ≤ 3 then 1 else 0),
             top_10_appearances := v.top_10_appearances + (if position ≤ 10 then 1 else 0),
             urls_found := v.urls_found ++
               (match truthyLink r.link with
                | some l => [{ url := l, query := serp.query, position := position }]
                | none => []),
             by_language := cincr v.by_language (serpLanguage serp),
             by_intent := cincr v.by_intent (serpIntent serp),
             average_position_value := v.average_position_value }, true)
    else .ok (v, acc.2)

/-- The inner results loop (`found_in_query` is the Bool component). -/
def visResults (serp : Serp) : BrandVisibility × Bool → List OrganicResult →
    Except String (BrandVisibility × Bool)
  | acc, [] => .ok acc
  | acc, r :: rs =>
    match visResult serp acc r with
    | .error e => .error e
    | .ok acc' => visResults serp acc' rs

/-- One iteration of the outer `for serp in serp_results` loop. -/
def visSerp (v : BrandVisibility) (serp : Serp) : Except String BrandVisibility :=
  match visResults serp (v, false) (orgList serp) with
  | .error e => .error e
  | .ok (v', found) =>
    .ok (if found then { v' with queries_with_brand := v'.queries_with_brand + 1 } else v')

/-- The outer loop over all SERP records. -/
def visSerps : BrandVisibility → List Serp → Except String BrandVisibility
  | v, [] => .ok v
  | v, s :: rest =>
    match visSerp v s with
    | .error e => .error e
    | .ok v' => visSerps v' rest

/-- The final `average_position_value` computation:
`sum(...) / len(...)` when the matched-position list is nonempty, else null. -/
def listMean (l : List Nat) : Option ℚ :=
  if l = [] then none else some (listMeanQ l)

/-- `SerpAnalyzerAgent._analyze_brand_visibility`. -/
def analyze_brand_visibility (serp_results : List Serp) : Except String BrandVisibility :=
  match visSerps initVisibility serp_results with
  | .error e => .error e
  | .ok v => .ok { v with average_position_value := listMean v.average_position }

/-! ## Competitor Ranking Analyzer (`_analyze_competitors`) -/

/-- One entry of `top_competitors`. -/
structure Competitor where
  domain : String
  appearances : Nat
  average_position : ℚ
  best_position : Nat
  worst_position : Nat
deriving DecidableEq, Repr

/-- Output of the competitor analysis. -/
structure CompetitorAnalysis where
  total_unique_domains : Nat
  top_competitors : List Competitor
deriving DecidableEq, Repr

/-- The nested tally loops building `domain_counter` and `domain_positions`:
for every organic result with a truthy link, increment the counter of the
link's domain and append `result.get("position", 999)` to its position list. -/
def compTallies (serp_results : List Serp) :
    List (String × Nat) × List (String × List Nat) :=
  serp_results.foldl (fun acc serp =>
    (orgList serp).foldl (fun acc r =>
      match truthyLink r.link with
      | none => acc
      | some link =>
        let domain := netloc link
        (cincr acc.1 domain, padd acc.2 domain (rPos r))) acc)
    ([], [])

/-- `SerpAnalyzerAgent._analyze_competitors`. -/
def analyze_competitors (serp_results : List Serp) : CompetitorAnalysis :=
  let tallies := compTallies serp_results
  { total_unique_domains := tallies.1.length,
    top_competitors := (most_common 20 tallies.1).map (fun dc =>
      let positions := plookup tallies.2 dc.1
      { domain := dc.1, appearances := dc.2,
        average_position := listMeanQ positions,
        best_position := listMin positions,
        worst_position := listMax positions }) }

/-! ## Geo/Language Distribution Analyzer (`_analyze_geo_distribution`) -/

/-- Output of the geo analysis; `language_performance` stays the empty
placeholder dictionary of the source. -/
structure GeoAnalysis where
  by_language : List (String × Nat)
  by_location : List (String × Nat)
  language_performance : List (String × Nat)
deriving DecidableEq, Repr

/-- `SerpAnalyzerAgent._analyze_geo_distribution`. -/
def analyze_geo_distribution (serp_results : List Serp) : GeoAnalysis :=
  let tallies := serp_results.foldl (fun acc serp =>
    (cincr acc.1 (serp.language.getD "unknown"),
     cincr acc.2 (serp.location.getD "unknown"))) ([], [])
  { by_language := tallies.1, by_location := tallies.2, language_performance := [] }

/-! ## Content Insight Analyzer (`_analyze_content_insights`) -/

/-- Output of the content-insight analysis.  `top_related_searches` and
`top_questions` are keys the source only adds when the respective collected
sequence is nonempty, hence `Option`; entries are (value, count) pairs, and
a value is itself an `Option String` because `related.get("query")` /
`paa.get("question")` enters `None` for a missing key. -/
structure ContentInsights where
  common_keywords : List String
  related_searches_all : List (Option String)
  people_also_ask_all : List (Option String)
  top_related_searches : Option (List (Option String × Nat))
  top_questions : Option (List (Option String × Nat))
deriving DecidableEq, Repr

/-- `SerpAnalyzerAgent._analyze_content_insights`. -/
def analyze_content_insights (serp_results : List Serp) : ContentInsights :=
  let rel := serp_results.flatMap (fun serp => serp.related_searches.getD [])
  let paa := serp_results.flatMap (fun serp => serp.people_also_ask.getD [])
  { common_keywords := [],
    related_searches_all := rel,
    people_also_ask_all := paa,
    top_related_searches :=
      if rel = [] then none else some (most_common 20 (rel.foldl cincr [])),
    top_questions :=
      if paa = [] then none else some (most_common 20 (paa.foldl cincr [])) }

/-! ## SERP Feature Analyzer (`_analyze_serp_features`) -/

/-- Output of the SERP-feature analysis. -/
structure SerpFeatures where
  knowledge_graph_count : Nat
  related_searches_count : Nat
  people_also_ask_count : Nat
  rich_snippets_count : Nat
deriving DecidableEq, Repr

/-- `SerpAnalyzerAgent._analyze_serp_features`. -/
def analyze_serp_features (serp_results : List Serp) : SerpFeatures :=
  serp_results.foldl (fun f serp =>
    { knowledge_graph_count :=
        f.knowledge_graph_count + (if serp.knowledge_graph then 1 else 0),
      related_searches_count :=
        f.related_searches_count + (if serp.related_searches.getD [] ≠ [] then 1 else 0),
      people_also_ask_count :=
        f.people_also_ask_count + (if serp.people_also_ask.getD [] ≠ [] then 1 else 0),
      rich_snippets_count :=
        f.rich_snippets_count + (orgList serp).countP (fun r => r.rich_snippet) })
    { knowledge_graph_count := 0, related_searches_count := 0,
      people_also_ask_count := 0, rich_snippets_count := 0 }

/-! ## AI insights (`_generate_ai_insights`) -/

/-- One entry of `sample_data["sample_top_results"]`. -/
structure QuerySample where
  query : String
  language : Option String
  top_3_titles : List (Option String)
deriving DecidableEq, Repr

/-- The bounded sample handed to the language model. -/
structure SampleData where
  total_queries : Nat
  sample_queries : List String
  sample_top_results : List QuerySample
deriving DecidableEq, Repr

/-- Construction of `sample_data` (first 10 query strings; for the first 5
records the query, its `language`, and the first 3 organic titles). -/
def buildSampleData (serp_results : List Serp) : SampleData :=
  { total_queries := serp_results.length,
    sample_queries := (serp_results.take 10).map (fun s => s.query),
    sample_top_results := (serp_results.take 5).map (fun serp =>
      { query := serp.query, language := serp.language,
        top_3_titles := ((orgList serp).take 3).map (fun r => r.title.join) }) }

/-- The `ai_insights` field of the audit: either the parsed model output or
the `{"error": str(e)}` marker produced by the `except` branch. -/
inductive AiInsights where
  | insights (v : String)
  | aiError (msg : String)
deriving DecidableEq, Repr

/-- `SerpAnalyzerAgent._generate_ai_insights`, with the OpenAI chat call (and
its JSON parsing) abstracted as the injected fallible function `gen`.  Any
exception is caught and becomes the error marker. -/
def generate_ai_insights (gen : SampleData → Except String String)
    (serp_results : List Serp) : AiInsights :=
  match gen (buildSampleData serp_results) with
  | .ok v => .insights v
  | .error e => .aiError e

/-! ## Audit Aggregator (`analyze_serp_batch`) -/

/-- The `metadata` block of the audit. -/
structure AuditMetadata where
  timestamp : String
  total_queries : Nat
  target_brand : String
deriving DecidableEq, Repr

/-- `self.target_brand`. -/
def target_brand : String := "Turismo Torino"

/-- The complete audit dictionary. -/
structure Audit where
  metadata : AuditMetadata
  brand_visibility : BrandVisibility
  competitor_analysis : CompetitorAnalysis
  geo_analysis : GeoAnalysis
  content_insights : ContentInsights
  serp_features : SerpFeatures
  ai_insights : AiInsights
deriving DecidableEq, Repr

/-- `SerpAnalyzerAgent.analyze_serp_batch`.  `now` stands for
`datetime.now().isoformat()`; `gen` is the injected model call.  The audit
dictionary literal evaluates `_analyze_brand_visibility` first, so an
exception there aborts the whole batch (nothing else raises). -/
def analyze_serp_batch (gen : SampleData → Except String String) (now : String)
    (serp_results : List Serp) : Except String Audit :=
  match analyze_brand_visibility serp_results with
  | .error e => .error e
  | .ok bv =>
    .ok { metadata :=
            { timestamp := now, total_queries := serp_results.length,
              target_brand := target_brand },
          brand_visibility := bv,
          competitor_analysis := analyze_competitors serp_results,
          geo_analysis := analyze_geo_distribution serp_results,
          content_insights := analyze_content_insights serp_results,
          serp_features := analyze_serp_features serp_results,
          ai_insights := generate_ai_insights gen serp_results }

/-! ## Specification-side characterizations

The following definitions re-describe, directly as list comprehensions, what
the imperative loops above compute; the theorems relate the two.  They are
used only in theorem statements and proofs. -/

/-- The brand-match predicate on one organic result, with every missing or
null field read as the empty string (this is the test the claims describe;
on inputs where the analyzer does not raise it coincides with the source's
`is_brand`). -/
def isBrandResult (r : OrganicResult) : Bool :=
  isBrandStrings (lowerOf r.title) (lowerOf r.link) (lowerOf r.snippet)
    (lowerOf r.displayed_link)

/-- The brand-matching organic results of one record. -/
def serpMatches (s : Serp) : List OrganicResult :=
  (orgList s).filter isBrandResult

/-- All brand-matching organic results across the batch, paired with their
record. -/
def allMatches (serp_results : List Serp) : List (Serp × OrganicResult) :=
  serp_results.flatMap (fun s => (serpMatches s).map (fun r => (s, r)))

/-- The positions (with the 999 sentinel for a missing rank) of all
brand-matching results, in batch order. -/
def matchPositions (serp_results : List Serp) : List Nat :=
  (allMatches serp_results).map (fun p => rPos p.2)

/-- The `urls_found` entry contributed by one brand-matching result:
present exactly when the result's link is truthy. -/
def urlOfMatch (p : Serp × OrganicResult) : Option UrlFound :=
  match truthyLink p.2.link with
  | some l => some { url := l, query := p.1.query, position := rPos p.2 }
  | none => none

/-- No organic result of the batch carries an explicitly null `link`
(the one shape of well-typed JSON input on which the analyzer raises). -/
def NoNullLinks (serp_results : List Serp) : Prop :=
  ∀ s ∈ serp_results, ∀ r ∈ orgList s, r.link ≠ some none

instance (serp_results : List Serp) : Decidable (NoNullLinks serp_results) := by
  unfold NoNullLinks; infer_instance

/-- The (link, position) pair contributed by one organic result to the
competitor tallies, when its link is truthy. -/
def extractLP (r : OrganicResult) : Option (String × Nat) :=
  (truthyLink r.link).map (fun l => (l, rPos r))

/-- All (link, position) pairs of organic results with a truthy link,
in batch order. -/
def allLinks (serp_results : List Serp) : List (String × Nat) :=
  serp_results.flatMap (fun s => (orgList s).filterMap extractLP)

/-- One competitor-tally step on a flattened (link, position) pair; the
nested loops of `compTallies` are this step folded over `allLinks`. -/
def tallyStep (acc : List (String × Nat) × List (String × List Nat))
    (lp : String × Nat) : List (String × Nat) × List (String × List Nat) :=
  let domain := netloc lp.1
  (cincr acc.1 domain, padd acc.2 domain lp.2)

/-- The positions collected for one domain, in batch order. -/
def domainPositions (serp_results : List Serp) (d : String) : List Nat :=
  (allLinks serp_results).filterMap (fun lp =>
    if netloc lp.1 = d then some lp.2 else none)

/-- Keys in order of first occurrence (`seen` accumulates already-kept keys). -/
def firstOccur {α : Type} [DecidableEq α] : List α → List α → List α
  | _, [] => []
  | seen, x :: xs =>
    if x ∈ seen then firstOccur seen xs else x :: firstOccur (x :: seen) xs

/-- Modelled from the spec wording of claim C3, for comparison with the code:
the arithmetic mean of `position` over the brand-matching results whose
position is a real rank, the absent-position sentinel entries excluded;
null when no matching result has a real rank. -/
def specAvgExcludingSentinel (serp_results : List Serp) : Option ℚ :=
  let ps := (allMatches serp_results).filterMap (fun p => p.2.position)
  if ps = [] then none else some (listMeanQ ps)

/-- The pure per-result step of the brand-visibility loop: what `visResult`
computes whenever it does not raise (proved as `visResult_ok`). -/
def visStepP (serp : Serp) (acc : BrandVisibility × Bool) (r : OrganicResult) :
    BrandVisibility × Bool :=
  let v := acc.1
  if isBrandResult r then
    ({ total_appearances := v.total_appearances + 1,
       queries_with_brand := v.queries_with_brand,
       average_position := v.average_position ++ [rPos r],
       top_3_appearances := v.top_3_appearances + (if rPos r ≤ 3 then 1 else 0),
       top_10_appearances := v.top_10_appearances + (if rPos r ≤ 10 then 1 else 0),
       urls_found := v.urls_found ++ (urlOfMatch (serp, r)).toList,
       by_language := cincr v.by_language (serpLanguage serp),
       by_intent := cincr v.by_intent (serpIntent serp),
       average_position_value := v.average_position_value }, true)
  else acc

/-- The pure per-record step of the brand-visibility outer loop: what
`visSerp` computes whenever it does not raise (proved as `visSerp_ok`). -/
def visSerpP (v : BrandVisibility) (serp : Serp) : BrandVisibility :=
  let acc := (orgList serp).foldl (visStepP serp) (v, false)
  if acc.2 then { acc.1 with queries_with_brand := acc.1.queries_with_brand + 1 }
  else acc.1

/-! ## Concrete inputs for witnesses and counterexamples -/

/-- A result that matches the brand via its title and carries rank 1. -/
def resBrandPos1 : OrganicResult :=
  { position := some 1, title := some (some "Eventi a Torino - Turismo Torino"),
    link := some (some "https://turismotorino.org/eventi") }

/-- A non-matching result at rank 2. -/
def resOtherPos2 : OrganicResult :=
  { position := some 2, title := some (some "Other"),
    link := some (some "https://example.com/x") }

/-- A brand-matching result with no `position` key (sentinel 999) and no link. -/
def resBrandNoPos : OrganicResult :=
  { title := some (some "turismo torino eventi") }

/-- A result whose `link` key is present with value null. -/
def resNullLink : OrganicResult :=
  { position := some 4, title := some (some "anything"), link := some none }

/-- The scenario record of spec §8 item 5. -/
def demoSerp : Serp :=
  { query := "eventi Torino oggi",
    language := some "it",
    query_metadata := some { language := some "it", intent := some "informational" },
    organic_results := some [resBrandPos1, resOtherPos2] }

/-- A record whose matching results have positions 1 and (sentinel) 999. -/
def cex3Serp : Serp :=
  { query := "q", organic_results := some [resBrandPos1, resBrandNoPos] }

/-- A record with one brand match that has no link. -/
def cex4Serp : Serp :=
  { query := "q", organic_results := some [resBrandNoPos] }

/-- A record containing an explicitly null link. -/
def cex5Serp : Serp :=
  { query := "q", organic_results := some [resNullLink] }

/-- A record with null `title`/`snippet`/`displayed_link` and a missing link:
tolerated by the analyzer. -/
def nullFieldsSerp : Serp :=
  { query := "q",
    organic_results := some
      [{ title := some none, snippet := some none, displayed_link := some none }] }

/-- A record carrying related searches ["a", "b", "a"]. -/
def c8Serp : Serp :=
  { query := "q", related_searches := some [some "a", some "b", some "a"] }

/-- A record with a single non-matching organic result. -/
def noBrandSerp : Serp :=
  { query := "q", organic_results := some [resOtherPos2] }

/-- An insight generator that always fails (a simulated network error). -/
def genFail : SampleData → Except String String := fun _ => .error "network error"

/-- An insight generator that always succeeds. -/
def genOk : SampleData → Except String String := fun _ => .ok "insights"

/-! ## Lemmas about the insertion-ordered counters and the stable sort -/

theorem insertDesc_perm {α : Type} (x : α × Nat) (l : List (α × Nat)) :
    List.Perm (insertDesc x l) (x :: l) := by
  induction l with
  | nil => simp [insertDesc]
  | cons y ys ih =>
    by_cases h : x.2 < y.2
    · rw [insertDesc, if_pos h]
      exact (ih.cons y).trans (List.Perm.swap x y ys)
    · rw [insertDesc, if_neg h]

theorem sortDesc_perm {α : Type} (l : List (α × Nat)) :
    List.Perm (sortDesc l) l := by
  induction l with
  | nil => simp [sortDesc]
  | cons x xs ih =>
    exact (insertDesc_perm x (sortDesc xs)).trans (ih.cons x)

theorem insertDesc_sorted {α : Type} (x : α × Nat) (l : List (α × Nat))
    (h : l.Pairwise (fun a b => b.2 ≤ a.2)) :
    (insertDesc x l).Pairwise (fun a b => b.2 ≤ a.2) := by
  induction l with
  | nil => simp [insertDesc]
  | cons y ys ih =>
    rcases List.pairwise_cons.mp h with ⟨hy, hys⟩
    by_cases hcmp : x.2 < y.2
    · rw [insertDesc, if_pos hcmp]
      refine List.pairwise_cons.mpr ⟨?_, ih hys⟩
      intro z hz
      rcases List.mem_cons.mp (((insertDesc_perm x ys).mem_iff).mp hz) with rfl | hz
      · exact le_of_lt hcmp
      · exact hy z hz
    · rw [insertDesc, if_neg hcmp]
      refine List.pairwise_cons.mpr ⟨?_, h⟩
      intro z hz
      rcases List.mem_cons.mp hz with rfl | hz
      · exact le_of_not_lt hcmp
      · exact le_trans (hy z hz) (le_of_not_lt hcmp)

theorem sortDesc_sorted {α : Type} (l : List (α × Nat)) :
    (sortDesc l).Pairwise (fun a b => b.2 ≤ a.2) := by
  induction l with
  | nil => simp [sortDesc]
  | cons x xs ih => exact insertDesc_sorted x (sortDesc xs) ih

theorem insertDesc_filter {α : Type} (x : α × Nat) (l : List (α × Nat)) (n : Nat) :
    (insertDesc x l).filter (fun e => decide (e.2 = n)) =
      if x.2 = n then x :: l.filter (fun e => decide (e.2 = n))
      else l.filter (fun e => decide (e.2 = n)) := by
  induction l with
  | nil => by_cases h : x.2 = n <;> simp [insertDesc, List.filter, h]
  | cons y ys ih =>
    by_cases hcmp : x.2 < y.2
    · rw [insertDesc, if_pos hcmp]
      by_cases hx : x.2 = n
      · have hy : ¬ y.2 = n := by omega
        simp [List.filter_cons, hx, hy, ih]
      · simp [List.filter_cons, hx, ih]
    · rw [insertDesc, if_neg hcmp]
      by_cases hx : x.2 = n <;> simp [List.filter_cons, hx]

theorem sortDesc_filter {α : Type} (l : List (α × Nat)) (n : Nat) :
    (sortDesc l).filter (fun e => decide (e.2 = n)) =
      l.filter (fun e => decide (e.2 = n)) := by
  induction l with
  | nil => simp [sortDesc]
  | cons x xs ih =>
    show ((insertDesc x (sortDesc xs)).filter _) = _
    rw [insertDesc_filter]
    by_cases hx : x.2 = n <;> simp [List.filter_cons, hx, ih]

theorem alookup_cincr_self {α : Type} [DecidableEq α] (c : List (α × Nat)) (k : α) :
    alookup (cincr c k) k = some ((alookup c k).getD 0 + 1) := by
  induction c with
  | nil => simp [cincr, alookup]
  | cons e rest ih =>
    obtain ⟨a, n⟩ := e
    by_cases h : a = k
    · simp [cincr, alookup, h]
    · simp [cincr, alookup, h, ih]

theorem alookup_cincr_ne {α : Type} [DecidableEq α] (c : List (α × Nat)) (k b : α)
    (h : b ≠ k) : alookup (cincr c k) b = alookup c b := by
  induction c with
  | nil =>
    have hne : ¬ (k = b) := fun he => h he.symm
    simp [cincr, alookup, hne]
  | cons e rest ih =>
    obtain ⟨a, n⟩ := e
    by_cases he : a = k
    · subst he
      have hne : ¬ (a = b) := fun he' => h he'.symm
      simp [cincr, alookup, hne]
    · simp [cincr, alookup, he, ih]

theorem sumCounts_cincr {α : Type} [DecidableEq α] (c : List (α × Nat)) (k : α) :
    sumCounts (cincr c k) = sumCounts c + 1 := by
  induction c with
  | nil => simp [cincr, sumCounts]
  | cons e rest ih =>
    obtain ⟨a, n⟩ := e
    by_cases h : a = k
    · simp [cincr, sumCounts, h]
      omega
    · rw [cincr, if_neg h]
      simp only [sumCounts, List.map_cons, List.sum_cons] at ih ⊢
      omega

theorem keys_cincr {α : Type} [DecidableEq α] (c : List (α × Nat)) (k : α) :
    (cincr c k).map Prod.fst =
      if k ∈ c.map Prod.fst then c.map Prod.fst else c.map Prod.fst ++ [k] := by
  induction c with
  | nil => simp [cincr]
  | cons e rest ih =>
    obtain ⟨a, n⟩ := e
    by_cases h : a = k
    · simp [cincr, h]
    · have hk : ¬ k = a := fun he => h he.symm
      by_cases hmem : k ∈ rest.map Prod.fst <;>
        simp [cincr, h, hk, hmem, ih]

theorem nodup_keys_cincr {α : Type} [DecidableEq α] (c : List (α × Nat)) (k : α)
    (h : (c.map Prod.fst).Nodup) : ((cincr c k).map Prod.fst).Nodup := by
  rw [keys_cincr]
  by_cases hmem : k ∈ c.map Prod.fst
  · rwa [if_pos hmem]
  · rw [if_neg hmem]
    rw [List.nodup_append]
    exact ⟨h, List.nodup_singleton k, by simpa using fun hk => hmem hk⟩

theorem counts_pos_cincr {α : Type} [DecidableEq α] (c : List (α × Nat)) (k : α)
    (h : ∀ e ∈ c, 1 ≤ e.2) : ∀ e ∈ cincr c k, 1 ≤ e.2 := by
  induction c with
  | nil =>
    intro e he
    rw [show cincr ([] : List (α × Nat)) k = [(k, 1)] from rfl] at he
    rcases List.mem_singleton.mp he with rfl
    exact le_refl 1
  | cons x rest ih =>
    obtain ⟨a, n⟩ := x
    intro e he
    by_cases hx : a = k
    · rw [cincr, if_pos hx] at he
      rcases List.mem_cons.mp he with rfl | he
      · omega
      · exact h e (List.mem_cons_of_mem (a, n) he)
    · rw [cincr, if_neg hx] at he
      rcases List.mem_cons.mp he with rfl | he
      · exact h (a, n) (List.mem_cons_self (a, n) rest)
      · exact ih (fun e' he' => h e' (List.mem_cons_of_mem (a, n) he')) e he

theorem alookup_of_mem {α : Type} [DecidableEq α] (c : List (α × Nat)) (e : α × Nat)
    (hnd : (c.map Prod.fst).Nodup) (he : e ∈ c) : alookup c e.1 = some e.2 := by
  induction c with
  | nil => cases he
  | cons x rest ih =>
    obtain ⟨a, n⟩ := x
    rcases List.mem_cons.mp he with rfl | he
    · rw [alookup, if_pos rfl]
    · have hnd' : (a :: rest.map Prod.fst).Nodup := by simpa using hnd
      rcases List.nodup_cons.mp hnd' with ⟨hx, hrest⟩
      have hne : ¬ a = e.1 := by
        intro hcontra
        exact hx (hcontra ▸ List.mem_map_of_mem Prod.fst he)
      rw [alookup, if_neg hne]
      exact ih hrest he

theorem plookup_padd_self {α : Type} [DecidableEq α] (p : List (α × List Nat))
    (k : α) (x : Nat) : plookup (padd p k x) k = plookup p k ++ [x] := by
  induction p with
  | nil => simp [padd, plookup]
  | cons e rest ih =>
    obtain ⟨a, l⟩ := e
    by_cases h : a = k
    · simp [padd, plookup, h]
    · simp [padd, plookup, h, ih]

theorem plookup_padd_ne {α : Type} [DecidableEq α] (p : List (α × List Nat))
    (k b : α) (x : Nat) (h : b ≠ k) : plookup (padd p k x) b = plookup p b := by
  induction p with
  | nil =>
    have hne : ¬ (k = b) := fun he => h he.symm
    simp [padd, plookup, hne]
  | cons e rest ih =>
    obtain ⟨a, l⟩ := e
    by_cases he : a = k
    · subst he
      have hne : ¬ (a = b) := fun he' => h he'.symm
      simp [padd, plookup, hne]
    · simp [padd, plookup, he, ih]

theorem firstOccur_congr {α : Type} [DecidableEq α] (L : List α) :
    ∀ s s', (∀ x, x ∈ s ↔ x ∈ s') → firstOccur s L = firstOccur s' L := by
  induction L with
  | nil => intro s s' _; rfl
  | cons x xs ih =>
    intro s s' h
    by_cases hx : x ∈ s
    · rw [firstOccur, if_pos hx, firstOccur, if_pos ((h x).mp hx), ih s s' h]
    · rw [firstOccur, if_neg hx, firstOccur, if_neg (fun hx' => hx ((h x).mpr hx'))]
      refine congrArg (x :: ·) (ih _ _ ?_)
      intro y
      simp [h y]

/-! ## Characterizing the competitor tallies -/

theorem inner_tally_eq (rs : List OrganicResult)
    (acc : List (String × Nat) × List (String × List Nat)) :
    rs.foldl (fun acc r =>
      match truthyLink r.link with
      | none => acc
      | some link =>
        let domain := netloc link
        (cincr acc.1 domain, padd acc.2 domain (rPos r))) acc =
    (rs.filterMap extractLP).foldl tallyStep acc := by
  induction rs generalizing acc with
  | nil => rfl
  | cons r rest ih =>
    cases htl : truthyLink r.link with
    | none => simp [List.foldl_cons, htl, List.filterMap_cons, extractLP, ih]
    | some link => simp [List.foldl_cons, htl, List.filterMap_cons, extractLP, ih, tallyStep]

theorem compTallies_flat (serp_results : List Serp) :
    compTallies serp_results = (allLinks serp_results).foldl tallyStep ([], []) := by
  suffices hgen : ∀ (serps : List Serp) acc,
      serps.foldl (fun acc serp =>
        (orgList serp).foldl (fun acc r =>
          match truthyLink r.link with
          | none => acc
          | some link =>
            let domain := netloc link
            (cincr acc.1 domain, padd acc.2 domain (rPos r))) acc) acc =
      (allLinks serps).foldl tallyStep acc by
    exact hgen serp_results ([], [])
  intro serps
  induction serps with
  | nil => intro acc; rfl
  | cons s rest ih =>
    intro acc
    rw [List.foldl_cons, ih, inner_tally_eq]
    show _ = (allLinks (s :: rest)).foldl tallyStep acc
    rw [show allLinks (s :: rest) =
      (orgList s).filterMap extractLP ++ allLinks rest from by
        simp [allLinks]]
    rw [List.foldl_append]

theorem tally_count (L : List (String × Nat)) :
    ∀ acc d, (alookup (L.foldl tallyStep acc).1 d).getD 0 =
      (alookup acc.1 d).getD 0 + L.countP (fun lp => decide (netloc lp.1 = d)) := by
  induction L with
  | nil => intro acc d; simp
  | cons lp rest ih =>
    intro acc d
    rw [List.foldl_cons, ih, List.countP_cons]
    by_cases hd : netloc lp.1 = d
    · rw [show (tallyStep acc lp).1 = cincr acc.1 (netloc lp.1) from rfl, hd,
        alookup_cincr_self]
      simp [hd]
      omega
    · rw [show (tallyStep acc lp).1 = cincr acc.1 (netloc lp.1) from rfl,
        alookup_cincr_ne _ _ _ (fun he => hd he.symm)]
      simp [hd]

theorem tally_pos (L : List (String × Nat)) :
    ∀ acc d, plookup (L.foldl tallyStep acc).2 d =
      plookup acc.2 d ++
        L.filterMap (fun lp => if netloc lp.1 = d then some lp.2 else none) := by
  induction L with
  | nil => intro acc d; simp
  | cons lp rest ih =>
    intro acc d
    rw [List.foldl_cons, ih, List.filterMap_cons]
    by_cases hd : netloc lp.1 = d
    · rw [show (tallyStep acc lp).2 = padd acc.2 (netloc lp.1) lp.2 from rfl, hd,
        plookup_padd_self]
      simp [hd]
    · rw [show (tallyStep acc lp).2 = padd acc.2 (netloc lp.1) lp.2 from rfl,
        plookup_padd_ne _ _ _ _ (fun he => hd he.symm)]
      simp [hd]

theorem tally_sum (L : List (String × Nat)) :
    ∀ acc, sumCounts (L.foldl tallyStep acc).1 = sumCounts acc.1 + L.length := by
  induction L with
  | nil => intro acc; simp
  | cons lp rest ih =>
    intro acc
    rw [List.foldl_cons, ih,
      show (tallyStep acc lp).1 = cincr acc.1 (netloc lp.1) from rfl,
      sumCounts_cincr]
    simp
    omega

theorem tally_nodup (L : List (String × Nat)) :
    ∀ acc, ((acc.1 : List (String × Nat)).map Prod.fst).Nodup →
      ((L.foldl tallyStep acc).1.map Prod.fst).Nodup := by
  induction L with
  | nil => intro acc h; simpa using h
  | cons lp rest ih =>
    intro acc h
    rw [List.foldl_cons]
    exact ih _ (nodup_keys_cincr _ _ h)

theorem tally_counts_pos (L : List (String × Nat)) :
    ∀ acc, (∀ e ∈ (acc.1 : List (String × Nat)), 1 ≤ e.2) →
      ∀ e ∈ (L.foldl tallyStep acc).1, 1 ≤ e.2 := by
  induction L with
  | nil => intro acc h; simpa using h
  | cons lp rest ih =>
    intro acc h
    rw [List.foldl_cons]
    exact ih _ (counts_pos_cincr _ _ h)

theorem tally_keys (L : List (String × Nat)) :
    ∀ acc, (L.foldl tallyStep acc).1.map Prod.fst =
      acc.1.map Prod.fst ++
        firstOccur (acc.1.map Prod.fst) (L.map (fun lp => netloc lp.1)) := by
  induction L with
  | nil => intro acc; simp [firstOccur]
  | cons lp rest ih =>
    intro acc
    rw [List.foldl_cons, ih, List.map_cons,
      show (tallyStep acc lp).1 = cincr acc.1 (netloc lp.1) from rfl, keys_cincr]
    by_cases hmem : netloc lp.1 ∈ acc.1.map Prod.fst
    · rw [if_pos hmem, firstOccur, if_pos hmem]
    · rw [if_neg hmem, firstOccur, if_neg hmem]
      rw [firstOccur_congr (rest.map (fun lp => netloc lp.1))
        (acc.1.map Prod.fst ++ [netloc lp.1]) (netloc lp.1 :: acc.1.map Prod.fst)
        (fun x => by simp [or_comm])]
      simp

theorem length_filterMap_if {α β : Type} (p : α → Prop) [DecidablePred p]
    (f : α → β) (L : List α) :
    (L.filterMap (fun x => if p x then some (f x) else none)).length =
      L.countP (fun x => decide (p x)) := by
  induction L with
  | nil => rfl
  | cons x rest ih =>
    rw [List.filterMap_cons, List.countP_cons]
    by_cases hx : p x
    · simp [hx, ih]
    · simp [hx, ih]

/-! ## Minimum, maximum and mean of a nonempty list of positions -/

theorem foldl_min_le_init : ∀ (ys : List Nat) (a : Nat), ys.foldl Nat.min a ≤ a := by
  intro ys
  induction ys with
  | nil => intro a; simp
  | cons y rest ih =>
    intro a
    rw [List.foldl_cons]
    exact le_trans (ih (Nat.min a y)) (Nat.min_le_left a y)

theorem foldl_min_le_mem : ∀ (ys : List Nat) (a x : Nat), x ∈ ys →
    ys.foldl Nat.min a ≤ x := by
  intro ys
  induction ys with
  | nil => intro a x hx; cases hx
  | cons y rest ih =>
    intro a x hx
    rw [List.foldl_cons]
    rcases List.mem_cons.mp hx with rfl | hx
    · exact le_trans (foldl_min_le_init rest (Nat.min a x)) (Nat.min_le_right a x)
    · exact ih _ x hx

theorem listMin_le (l : List Nat) (x : Nat) (hx : x ∈ l) : listMin l ≤ x := by
  cases l with
  | nil => cases hx
  | cons y ys =>
    rcases List.mem_cons.mp hx with rfl | hx
    · exact foldl_min_le_init ys x
    · exact foldl_min_le_mem ys y x hx

theorem init_le_foldl_max : ∀ (ys : List Nat) (a : Nat), a ≤ ys.foldl Nat.max a := by
  intro ys
  induction ys with
  | nil => intro a; simp
  | cons y rest ih =>
    intro a
    rw [List.foldl_cons]
    exact le_trans (Nat.le_max_left a y) (ih (Nat.max a y))

theorem mem_le_foldl_max : ∀ (ys : List Nat) (a x : Nat), x ∈ ys →
    x ≤ ys.foldl Nat.max a := by
  intro ys
  induction ys with
  | nil => intro a x hx; cases hx
  | cons y rest ih =>
    intro a x hx
    rw [List.foldl_cons]
    rcases List.mem_cons.mp hx with rfl | hx
    · exact le_trans (Nat.le_max_right a x) (init_le_foldl_max rest (Nat.max a x))
    · exact ih _ x hx

theorem le_listMax (l : List Nat) (x : Nat) (hx : x ∈ l) : x ≤ listMax l := by
  cases l with
  | nil => cases hx
  | cons y ys =>
    rcases List.mem_cons.mp hx with rfl | hx
    · exact init_le_foldl_max ys x
    · exact mem_le_foldl_max ys y x hx

theorem listMin_le_mean (l : List Nat) (h : l ≠ []) :
    (listMin l : ℚ) ≤ listMeanQ l := by
  have hlen : 0 < (l.length : ℚ) := by
    have := List.length_pos.mpr h
    exact_mod_cast this
  rw [listMeanQ, le_div_iff₀ hlen]
  have hmem : ∀ x ∈ l.map natCastQ, (listMin l : ℚ) ≤ x := by
    intro x hx
    obtain ⟨y, hy, hxy⟩ := List.mem_map.mp hx
    subst hxy
    rw [show natCastQ y = (y : ℚ) from rfl]
    exact_mod_cast listMin_le l y hy
  have hsum := List.card_nsmul_le_sum (l.map natCastQ)
    ((listMin l : ℚ)) hmem
  rw [List.length_map] at hsum
  calc (listMin l : ℚ) * l.length = l.length • (listMin l : ℚ) := by
        rw [nsmul_eq_mul, mul_comm]
    _ ≤ (l.map natCastQ).sum := hsum

theorem mean_le_listMax (l : List Nat) (h : l ≠ []) :
    listMeanQ l ≤ (listMax l : ℚ) := by
  have hlen : 0 < (l.length : ℚ) := by
    have := List.length_pos.mpr h
    exact_mod_cast this
  rw [listMeanQ, div_le_iff₀ hlen]
  have hmem : ∀ x ∈ l.map natCastQ, x ≤ (listMax l : ℚ) := by
    intro x hx
    obtain ⟨y, hy, hxy⟩ := List.mem_map.mp hx
    subst hxy
    rw [show natCastQ y = (y : ℚ) from rfl]
    exact_mod_cast le_listMax l y hy
  have hsum := List.sum_le_card_nsmul (l.map natCastQ)
    ((listMax l : ℚ)) hmem
  rw [List.length_map] at hsum
  calc (l.map natCastQ).sum ≤ l.length • (listMax l : ℚ) := hsum
    _ = (listMax l : ℚ) * l.length := by rw [nsmul_eq_mul, mul_comm]

/-! ## Characterizing the brand-visibility loop -/

theorem lowerOf_none : lowerOf (none : Option (Option String)) = "" := rfl

theorem visResult_ok (serp : Serp) (acc : BrandVisibility × Bool) (r : OrganicResult)
    (h : r.link ≠ some none) :
    visResult serp acc r = .ok (visStepP serp acc r) := by
  match hl : r.link with
  | none =>
    rw [visResult, hl]
    show (if isBrandStrings (lowerOf r.title) "" (lowerOf r.snippet)
        (lowerOf r.displayed_link) = true then _ else _) = _
    rw [visStepP]
    by_cases hb : isBrandResult r
    · rw [if_pos (by simpa [isBrandResult, hl, lowerOf] using hb), if_pos hb]
      simp [urlOfMatch, truthyLink, hl, rPos]
    · rw [if_neg (by simpa [isBrandResult, hl, lowerOf] using hb), if_neg hb]
  | some none => exact absurd hl h
  | some (some s) =>
    rw [visResult, hl]
    show (if isBrandStrings (lowerOf r.title) (lowerChars s) (lowerOf r.snippet)
        (lowerOf r.displayed_link) = true then _ else _) = _
    rw [visStepP]
    by_cases hb : isBrandResult r
    · rw [if_pos (by simpa [isBrandResult, hl, lowerOf] using hb), if_pos hb]
      simp only [urlOfMatch, truthyLink, hl, Option.join]
      by_cases hs : s = ""
      · simp [hs]
      · simp [hs]
    · rw [if_neg (by simpa [isBrandResult, hl, lowerOf] using hb), if_neg hb]

theorem visResults_ok (serp : Serp) :
    ∀ (rs : List OrganicResult), (∀ r ∈ rs, r.link ≠ some none) →
    ∀ (acc : BrandVisibility × Bool),
      visResults serp acc rs = .ok (rs.foldl (visStepP serp) acc) := by
  intro rs
  induction rs with
  | nil => intro _ acc; rfl
  | cons r rest ih =>
    intro h acc
    rw [visResults, visResult_ok serp acc r (h r (List.mem_cons_self r rest))]
    exact ih (fun r' hr' => h r' (List.mem_cons_of_mem r hr')) _

theorem visSerp_ok (v : BrandVisibility) (serp : Serp)
    (h : ∀ r ∈ orgList serp, r.link ≠ some none) :
    visSerp v serp = .ok (visSerpP v serp) := by
  rw [visSerp, visResults_ok serp (orgList serp) h (v, false)]
  rfl

theorem visSerps_ok (serps : List Serp) (h : NoNullLinks serps) :
    ∀ v : BrandVisibility, visSerps v serps = .ok (serps.foldl visSerpP v) := by
  induction serps with
  | nil => intro v; rfl
  | cons s rest ih =>
    intro v
    rw [visSerps, visSerp_ok v s (h s (List.mem_cons_self s rest))]
    exact ih (fun s' hs' => h s' (List.mem_cons_of_mem s hs')) _

/-! Per-field characterizations of the pure inner fold. -/

theorem foldP_total (serp : Serp) (rs : List OrganicResult) :
    ∀ acc : BrandVisibility × Bool,
      ((rs.foldl (visStepP serp) acc).1).total_appearances =
        acc.1.total_appearances + (rs.filter isBrandResult).length := by
  induction rs with
  | nil => intro acc; simp
  | cons r rest ih =>
    intro acc
    rw [List.foldl_cons, ih, List.filter_cons]
    by_cases hb : isBrandResult r
    · simp [visStepP, hb]
      omega
    · simp [visStepP, hb]

theorem foldP_queries (serp : Serp) (rs : List OrganicResult) :
    ∀ acc : BrandVisibility × Bool,
      ((rs.foldl (visStepP serp) acc).1).queries_with_brand =
        acc.1.queries_with_brand := by
  induction rs with
  | nil => intro acc; simp
  | cons r rest ih =>
    intro acc
    rw [List.foldl_cons, ih]
    by_cases hb : isBrandResult r <;> simp [visStepP, hb]

theorem foldP_avg (serp : Serp) (rs : List OrganicResult) :
    ∀ acc : BrandVisibility × Bool,
      ((rs.foldl (visStepP serp) acc).1).average_position =
        acc.1.average_position ++ (rs.filter isBrandResult).map rPos := by
  induction rs with
  | nil => intro acc; simp
  | cons r rest ih =>
    intro acc
    rw [List.foldl_cons, ih, List.filter_cons]
    by_cases hb : isBrandResult r
    · simp [visStepP, hb]
    · simp [visStepP, hb]

theorem foldP_top3 (serp : Serp) (rs : List OrganicResult) :
    ∀ acc : BrandVisibility × Bool,
      ((rs.foldl (visStepP serp) acc).1).top_3_appearances =
        acc.1.top_3_appearances +
          ((rs.filter isBrandResult).filter (fun r => decide (rPos r ≤ 3))).length := by
  induction rs with
  | nil => intro acc; simp
  | cons r rest ih =>
    intro acc
    rw [List.foldl_cons, ih, List.filter_cons]
    by_cases hb : isBrandResult r
    · by_cases hp : rPos r ≤ 3 <;> simp [visStepP, hb, List.filter_cons, hp] <;> omega
    · simp [visStepP, hb]

theorem foldP_top10 (serp : Serp) (rs : List OrganicResult) :
    ∀ acc : BrandVisibility × Bool,
      ((rs.foldl (visStepP serp) acc).1).top_10_appearances =
        acc.1.top_10_appearances +
          ((rs.filter isBrandResult).filter (fun r => decide (rPos r ≤ 10))).length := by
  induction rs with
  | nil => intro acc; simp
  | cons r rest ih =>
    intro acc
    rw [List.foldl_cons, ih, List.filter_cons]
    by_cases hb : isBrandResult r
    · by_cases hp : rPos r ≤ 10 <;> simp [visStepP, hb, List.filter_cons, hp] <;> omega
    · simp [visStepP, hb]

theorem foldP_urls (serp : Serp) (rs : List OrganicResult) :
    ∀ acc : BrandVisibility × Bool,
      ((rs.foldl (visStepP serp) acc).1).urls_found =
        acc.1.urls_found ++
          (rs.filter isBrandResult).filterMap (fun r => urlOfMatch (serp, r)) := by
  induction rs with
  | nil => intro acc; simp
  | cons r rest ih =>
    intro acc
    rw [List.foldl_cons, ih, List.filter_cons]
    by_cases hb : isBrandResult r
    · cases hu : urlOfMatch (serp, r) <;>
        simp [visStepP, hb, List.filterMap_cons, hu]
    · simp [visStepP, hb]

theorem foldP_avgvalue (serp : Serp) (rs : List OrganicResult) :
    ∀ acc : BrandVisibility × Bool,
      ((rs.foldl (visStepP serp) acc).1).average_position_value =
        acc.1.average_position_value := by
  induction rs with
  | nil => intro acc; simp
  | cons r rest ih =>
    intro acc
    rw [List.foldl_cons, ih]
    by_cases hb : isBrandResult r <;> simp [visStepP, hb]

theorem foldP_found (serp : Serp) (rs : List OrganicResult) :
    ∀ acc : BrandVisibility × Bool,
      (rs.foldl (visStepP serp) acc).2 = (acc.2 || rs.any isBrandResult) := by
  induction rs with
  | nil => intro acc; simp
  | cons r rest ih =>
    intro acc
    rw [List.foldl_cons, ih, List.any_cons]
    by_cases hb : isBrandResult r <;> simp [visStepP, hb]

/-! Per-field characterizations of the pure per-record step. -/

theorem visSerpP_total (v : BrandVisibility) (s : Serp) :
    (visSerpP v s).total_appearances =
      v.total_appearances + (serpMatches s).length := by
  simp only [visSerpP, foldP_found, Bool.false_or]
  by_cases hany : (orgList s).any isBrandResult <;>
    simp [hany, foldP_total, serpMatches]

theorem visSerpP_queries (v : BrandVisibility) (s : Serp) :
    (visSerpP v s).queries_with_brand = v.queries_with_brand +
      (if (orgList s).any isBrandResult then 1 else 0) := by
  simp only [visSerpP, foldP_found, Bool.false_or]
  by_cases hany : (orgList s).any isBrandResult <;>
    simp [hany, foldP_queries]

theorem visSerpP_avg (v : BrandVisibility) (s : Serp) :
    (visSerpP v s).average_position =
      v.average_position ++ (serpMatches s).map rPos := by
  simp only [visSerpP, foldP_found, Bool.false_or]
  by_cases hany : (orgList s).any isBrandResult <;>
    simp [hany, foldP_avg, serpMatches]

theorem visSerpP_top3 (v : BrandVisibility) (s : Serp) :
    (visSerpP v s).top_3_appearances = v.top_3_appearances +
      ((serpMatches s).filter (fun r => decide (rPos r ≤ 3))).length := by
  simp only [visSerpP, foldP_found, Bool.false_or]
  by_cases hany : (orgList s).any isBrandResult <;>
    simp [hany, foldP_top3, serpMatches]

theorem visSerpP_top10 (v : BrandVisibility) (s : Serp) :
    (visSerpP v s).top_10_appearances = v.top_10_appearances +
      ((serpMatches s).filter (fun r => decide (rPos r ≤ 10))).length := by
  simp only [visSerpP, foldP_found, Bool.false_or]
  by_cases hany : (orgList s).any isBrandResult <;>
    simp [hany, foldP_top10, serpMatches]

theorem visSerpP_urls (v : BrandVisibility) (s : Serp) :
    (visSerpP v s).urls_found = v.urls_found ++
      (serpMatches s).filterMap (fun r => urlOfMatch (s, r)) := by
  simp only [visSerpP, foldP_found, Bool.false_or]
  by_cases hany : (orgList s).any isBrandResult <;>
    simp [hany, foldP_urls, serpMatches]

theorem visSerpP_avgvalue (v : BrandVisibility) (s : Serp) :
    (visSerpP v s).average_position_value = v.average_position_value := by
  simp only [visSerpP, foldP_found, Bool.false_or]
  by_cases hany : (orgList s).any isBrandResult <;>
    simp [hany, foldP_avgvalue]

/-! Per-field characterizations of the outer fold. -/

theorem allMatches_cons (s : Serp) (rest : List Serp) :
    allMatches (s :: rest) =
      (serpMatches s).map (fun r => (s, r)) ++ allMatches rest := by
  simp [allMatches]

theorem serpsP_total (serps : List Serp) :
    ∀ v : BrandVisibility, (serps.foldl visSerpP v).total_appearances =
      v.total_appearances + (allMatches serps).length := by
  induction serps with
  | nil => intro v; simp [allMatches]
  | cons s rest ih =>
    intro v
    rw [List.foldl_cons, ih, visSerpP_total, allMatches_cons]
    simp
    omega

theorem serpsP_queries (serps : List Serp) :
    ∀ v : BrandVisibility, (serps.foldl visSerpP v).queries_with_brand =
      v.queries_with_brand +
        (serps.filter (fun s => (orgList s).any isBrandResult)).length := by
  induction serps with
  | nil => intro v; simp
  | cons s rest ih =>
    intro v
    rw [List.foldl_cons, ih, visSerpP_queries, List.filter_cons]
    by_cases hany : (orgList s).any isBrandResult
    · simp [hany]
      omega
    · simp [hany]

theorem matchPositions_cons (s : Serp) (rest : List Serp) :
    matchPositions (s :: rest) =
      (serpMatches s).map rPos ++ matchPositions rest := by
  simp [matchPositions, allMatches_cons, List.map_map, Function.comp]

theorem serpsP_avg (serps : List Serp) :
    ∀ v : BrandVisibility, (serps.foldl visSerpP v).average_position =
      v.average_position ++ matchPositions serps := by
  induction serps with
  | nil => intro v; simp [matchPositions, allMatches]
  | cons s rest ih =>
    intro v
    rw [List.foldl_cons, ih, visSerpP_avg, matchPositions_cons, List.append_assoc]

theorem serpsP_top3 (serps : List Serp) :
    ∀ v : BrandVisibility, (serps.foldl visSerpP v).top_3_appearances =
      v.top_3_appearances +
        ((allMatches serps).filter (fun p => decide (rPos p.2 ≤ 3))).length := by
  induction serps with
  | nil => intro v; simp [allMatches]
  | cons s rest ih =>
    intro v
    rw [List.foldl_cons, ih, visSerpP_top3, allMatches_cons, List.filter_append]
    rw [List.filter_map]
    rw [show ((fun p : Serp × OrganicResult => decide (rPos p.2 ≤ 3)) ∘
      fun r => (s, r)) = (fun r : OrganicResult => decide (rPos r ≤ 3)) from rfl]
    simp
    omega

theorem serpsP_top10 (serps : List Serp) :
    ∀ v : BrandVisibility, (serps.foldl visSerpP v).top_10_appearances =
      v.top_10_appearances +
        ((allMatches serps).filter (fun p => decide (rPos p.2 ≤ 10))).length := by
  induction serps with
  | nil => intro v; simp [allMatches]
  | cons s rest ih =>
    intro v
    rw [List.foldl_cons, ih, visSerpP_top10, allMatches_cons, List.filter_append]
    rw [List.filter_map]
    rw [show ((fun p : Serp × OrganicResult => decide (rPos p.2 ≤ 10)) ∘
      fun r => (s, r)) = (fun r : OrganicResult => decide (rPos r ≤ 10)) from rfl]
    simp
    omega

theorem serpsP_urls (serps : List Serp) :
    ∀ v : BrandVisibility, (serps.foldl visSerpP v).urls_found =
      v.urls_found ++ (allMatches serps).filterMap urlOfMatch := by
  induction serps with
  | nil => intro v; simp [allMatches]
  | cons s rest ih =>
    intro v
    rw [List.foldl_cons, ih, visSerpP_urls, allMatches_cons, List.filterMap_append,
      List.filterMap_map, List.append_assoc]
    rfl

theorem serpsP_avgvalue (serps : List Serp) :
    ∀ v : BrandVisibility, (serps.foldl visSerpP v).average_position_value =
      v.average_position_value := by
  induction serps with
  | nil => intro v; rfl
  | cons s rest ih =>
    intro v
    rw [List.foldl_cons, ih, visSerpP_avgvalue]

/-- Master characterization of `_analyze_brand_visibility` on inputs without
an explicitly null link. -/
theorem analyze_brand_visibility_ok (serps : List Serp) (h : NoNullLinks serps) :
    analyze_brand_visibility serps =
      .ok { serps.foldl visSerpP initVisibility with
            average_position_value :=
              listMean ((serps.foldl visSerpP initVisibility).average_position) } := by
  rw [analyze_brand_visibility, visSerps_ok serps h initVisibility]

/-! ## Remaining helper lemmas -/

theorem length_filter_mono {α : Type} (p q : α → Bool) (l : List α)
    (h : ∀ x, p x = true → q x = true) :
    (l.filter p).length ≤ (l.filter q).length := by
  induction l with
  | nil => simp
  | cons x rest ih =>
    rw [List.filter_cons, List.filter_cons]
    by_cases hx : p x = true
    · rw [if_pos hx, if_pos (h x hx)]
      simpa using ih
    · rw [if_neg hx]
      by_cases hq : q x = true
      · rw [if_pos hq]
        calc (rest.filter p).length ≤ (rest.filter q).length := ih
          _ ≤ (x :: rest.filter q).length := by simp
      · rw [if_neg hq]
        exact ih

theorem allMatches_nil_of_nomatch (serps : List Serp)
    (hm : ∀ s ∈ serps, ∀ r ∈ orgList s, isBrandResult r = false) :
    allMatches serps = [] := by
  induction serps with
  | nil => rfl
  | cons s rest ih =>
    rw [allMatches_cons, ih (fun s' hs' => hm s' (List.mem_cons_of_mem s hs'))]
    have hnil : serpMatches s = [] := by
      rw [serpMatches, List.filter_eq_nil_iff]
      intro r hr
      simp [hm s (List.mem_cons_self s rest) r hr]
    rw [hnil]
    simp

/-- Shared characterization of every entry of `top_competitors`. -/
theorem top_competitor_entry (serps : List Serp) (c : Competitor)
    (hc : c ∈ (analyze_competitors serps).top_competitors) :
    c.appearances = (domainPositions serps c.domain).length ∧
    c.average_position = listMeanQ (domainPositions serps c.domain) ∧
    c.best_position = listMin (domainPositions serps c.domain) ∧
    c.worst_position = listMax (domainPositions serps c.domain) ∧
    1 ≤ c.appearances := by
  simp only [analyze_competitors] at hc
  obtain ⟨dc, hdc, rfl⟩ := List.mem_map.mp hc
  have hmemsort : dc ∈ sortDesc (compTallies serps).1 :=
    (List.take_sublist 20 _).subset (by simpa [most_common] using hdc)
  have hmemc : dc ∈ (compTallies serps).1 :=
    (sortDesc_perm _).mem_iff.mp hmemsort
  have hnodup : ((compTallies serps).1.map Prod.fst).Nodup := by
    rw [compTallies_flat]
    exact tally_nodup _ _ (by simp)
  have hlook : alookup (compTallies serps).1 dc.1 = some dc.2 :=
    alookup_of_mem _ _ hnodup hmemc
  have hcount : dc.2 =
      (allLinks serps).countP (fun lp => decide (netloc lp.1 = dc.1)) := by
    have hco := tally_count (allLinks serps) ([], []) dc.1
    rw [← compTallies_flat, hlook] at hco
    simpa [alookup] using hco
  have hplook : plookup (compTallies serps).2 dc.1 = domainPositions serps dc.1 := by
    have hpo := tally_pos (allLinks serps) ([], []) dc.1
    rw [← compTallies_flat] at hpo
    simpa [domainPositions, plookup] using hpo
  have hlen : (domainPositions serps dc.1).length = dc.2 := by
    rw [domainPositions,
      length_filterMap_if (fun lp : String × Nat => netloc lp.1 = dc.1)
        (fun lp : String × Nat => lp.2) (allLinks serps)]
    exact hcount.symm
  have hone : 1 ≤ dc.2 := by
    have hall := tally_counts_pos (allLinks serps) ([], []) (by simp)
    rw [← compTallies_flat] at hall
    exact hall dc hmemc
  refine ⟨?_, ?_, ?_, ?_, ?_⟩
  · simpa using hlen.symm
  · simp [hplook]
  · simp [hplook]
  · simp [hplook]
  · simpa using hone

/-! ## Claim theorems -/

/-- C1: for every list of N SERP records (the data model admits no explicitly
null link), `analyze_serp_batch` returns exactly one audit whose
`metadata.total_queries` equals N; and for N = 0 the audit's five analyzer
sub-outputs are all zero/empty with a null `average_position_value`. -/
theorem spec_C1 (gen : SampleData → Except String String) (now : String)
    (serps : List Serp) (h : NoNullLinks serps) :
    (∃ a : Audit, analyze_serp_batch gen now serps = .ok a ∧
        a.metadata.total_queries = serps.length) ∧
    analyze_serp_batch gen now [] = .ok
      { metadata := { timestamp := now, total_queries := 0,
                      target_brand := target_brand },
        brand_visibility :=
          { total_appearances := 0, queries_with_brand := 0,
            average_position := [], top_3_appearances := 0,
            top_10_appearances := 0, urls_found := [], by_language := [],
            by_intent := [], average_position_value := none },
        competitor_analysis := { total_unique_domains := 0, top_competitors := [] },
        geo_analysis := { by_language := [], by_location := [],
                          language_performance := [] },
        content_insights :=
          { common_keywords := [], related_searches_all := [],
            people_also_ask_all := [], top_related_searches := none,
            top_questions := none },
        serp_features :=
          { knowledge_graph_count := 0, related_searches_count := 0,
            people_also_ask_count := 0, rich_snippets_count := 0 },
        ai_insights := generate_ai_insights gen [] } := by
  constructor
  · rw [analyze_serp_batch, analyze_brand_visibility_ok serps h]
    exact ⟨_, rfl, rfl⟩
  · rfl

/-- Witness for C1 at a concrete one-record batch. -/
theorem spec_C1_witness :
    NoNullLinks [demoSerp] ∧
    (∃ a : Audit, analyze_serp_batch genOk "t" [demoSerp] = .ok a ∧
      a.metadata.total_queries = 1) := by
  refine ⟨by decide, ?_⟩
  obtain ⟨⟨a, ha, hn⟩, _⟩ := spec_C1 genOk "t" [demoSerp] (by decide)
  exact ⟨a, ha, hn⟩

/-- C2: when no organic result matches any brand keyword, the brand-visibility
output has a null average position and zero totals. -/
theorem spec_C2 (serps : List Serp) (h : NoNullLinks serps)
    (hm : ∀ s ∈ serps, ∀ r ∈ orgList s, isBrandResult r = false) :
    ∃ v : BrandVisibility, analyze_brand_visibility serps = .ok v ∧
      v.average_position_value = none ∧ v.total_appearances = 0 ∧
      v.queries_with_brand = 0 := by
  rw [analyze_brand_visibility_ok serps h]
  have hnil : allMatches serps = [] := allMatches_nil_of_nomatch serps hm
  refine ⟨_, rfl, ?_, ?_, ?_⟩
  · show listMean ((serps.foldl visSerpP initVisibility).average_position) = none
    rw [serpsP_avg, matchPositions, hnil]
    rfl
  · show (serps.foldl visSerpP initVisibility).total_appearances = 0
    rw [serpsP_total, hnil]
    rfl
  · show (serps.foldl visSerpP initVisibility).queries_with_brand = 0
    rw [serpsP_queries]
    have hfe : serps.filter (fun s => (orgList s).any isBrandResult) = [] := by
      rw [List.filter_eq_nil_iff]
      intro s hs
      simp only [Bool.not_eq_true, List.any_eq_false]
      intro r hr
      simp [hm s hs r hr]
    rw [hfe]
    rfl

/-- Witness for C2: a one-record batch whose single organic result does not
match the brand. -/
theorem spec_C2_witness :
    NoNullLinks [noBrandSerp] ∧
    (∀ s ∈ [noBrandSerp], ∀ r ∈ orgList s, isBrandResult r = false) ∧
    ∃ v : BrandVisibility, analyze_brand_visibility [noBrandSerp] = .ok v ∧
      v.average_position_value = none ∧ v.total_appearances = 0 ∧
      v.queries_with_brand = 0 :=
  ⟨by decide, by decide, spec_C2 [noBrandSerp] (by decide) (by decide)⟩

/-- C5 counterexample: a present-but-null `link` makes
`_analyze_brand_visibility` raise (`None.lower()`), so `analyze_serp_batch`
propagates the exception instead of returning an audit — the claim that a
null link is treated as the empty string is false. -/
theorem spec_C5_counterexample :
    analyze_serp_batch genOk "t" [cex5Serp] =
      .error "AttributeError: NoneType object has no attribute lower" := by
  rfl

/-- C5 amended: a missing or null `title`/`snippet`/`displayed_link` and a
missing `link` are treated as the empty string, and the engine completes for
every input collection without an explicitly null link. -/
theorem spec_C5_amended (gen : SampleData → Except String String) (now : String)
    (serps : List Serp) (h : NoNullLinks serps) :
    ∃ a : Audit, analyze_serp_batch gen now serps = .ok a := by
  rw [analyze_serp_batch, analyze_brand_visibility_ok serps h]
  exact ⟨_, rfl⟩

/-- Witness for the amended C5: a record whose `title`, `snippet` and
`displayed_link` are explicitly null and whose `link` is missing is analyzed
without error. -/
theorem spec_C5_amended_witness :
    NoNullLinks [nullFieldsSerp] ∧
    ∃ a : Audit, analyze_serp_batch genOk "t" [nullFieldsSerp] = .ok a :=
  ⟨by decide, spec_C5_amended genOk "t" [nullFieldsSerp] (by decide)⟩

/-- C3 counterexample: on a batch whose brand matches have positions 1 and
(missing, hence sentinel) 999, the code returns the mean 500 including the
sentinel, while the claim's sentinel-excluding mean over real ranks is 1. -/
theorem spec_C3_counterexample :
    (analyze_brand_visibility [cex3Serp]).map
      (fun v => v.average_position_value) = .ok (some 500) ∧
    specAvgExcludingSentinel [cex3Serp] = some 1 ∧ ((500 : ℚ) ≠ 1) := by
  refine ⟨?_, ?_, by norm_num⟩
  · rw [analyze_brand_visibility_ok [cex3Serp] (by decide)]
    show Except.ok (listMean (([cex3Serp].foldl visSerpP
      initVisibility).average_position)) = Except.ok (some 500)
    rw [show ([cex3Serp].foldl visSerpP initVisibility).average_position =
      [1, 999] from by decide]
    rw [listMean, if_neg (by decide)]
    norm_num [listMeanQ, natCastQ]
  · rw [specAvgExcludingSentinel]
    rw [show (allMatches [cex3Serp]).filterMap (fun p => p.2.position) =
      [1] from by decide]
    rw [if_neg (by decide)]
    norm_num [listMeanQ, natCastQ]

/-- C3 amended: `average_position_value` is the arithmetic mean of the
positions of all brand-matching results, a missing position contributing the
999 sentinel (included, not excluded), and null only when there is no match. -/
theorem spec_C3_amended (serps : List Serp) (h : NoNullLinks serps) :
    ∃ v : BrandVisibility, analyze_brand_visibility serps = .ok v ∧
      v.average_position_value =
        (if matchPositions serps = [] then none
         else some (((matchPositions serps).map natCastQ).sum /
           (matchPositions serps).length)) := by
  rw [analyze_brand_visibility_ok serps h]
  refine ⟨_, rfl, ?_⟩
  show listMean ((serps.foldl visSerpP initVisibility).average_position) = _
  rw [serpsP_avg]
  show listMean ([] ++ matchPositions serps) = _
  rw [List.nil_append, listMean, listMeanQ]

/-- Witness for the amended C3 at a concrete batch with matched positions
1 and 999. -/
theorem spec_C3_amended_witness :
    NoNullLinks [cex3Serp] ∧
    ∃ v : BrandVisibility, analyze_brand_visibility [cex3Serp] = .ok v ∧
      v.average_position_value =
        (if matchPositions [cex3Serp] = [] then none
         else some (((matchPositions [cex3Serp]).map natCastQ).sum /
           (matchPositions [cex3Serp]).length)) :=
  ⟨by decide, spec_C3_amended [cex3Serp] (by decide)⟩

/-- C4 counterexample: a brand match without a link increments
`total_appearances` but contributes no `urls_found` entry, so the lengths
differ. -/
theorem spec_C4_counterexample :
    (analyze_brand_visibility [cex4Serp]).map
      (fun v => (v.urls_found.length, v.total_appearances)) = .ok (0, 1) ∧
    (0 : Nat) ≠ 1 := by
  refine ⟨?_, by decide⟩
  rw [analyze_brand_visibility_ok [cex4Serp] (by decide)]
  show Except.ok (((([cex4Serp].foldl visSerpP initVisibility)).urls_found.length),
    (([cex4Serp].foldl visSerpP initVisibility)).total_appearances) = _
  rw [show ([cex4Serp].foldl visSerpP initVisibility).urls_found = [] from by decide]
  rw [show ([cex4Serp].foldl visSerpP initVisibility).total_appearances = 1 from by
    decide]
  rfl

/-- C4 amended: `urls_found` holds one entry for every brand-matching result
whose link is non-empty (truthy), so its length is at most, not equal to,
`total_appearances`. -/
theorem spec_C4_amended (serps : List Serp) (h : NoNullLinks serps) :
    ∃ v : BrandVisibility, analyze_brand_visibility serps = .ok v ∧
      v.urls_found = (allMatches serps).filterMap urlOfMatch ∧
      v.urls_found.length ≤ v.total_appearances := by
  rw [analyze_brand_visibility_ok serps h]
  have hu : ((serps.foldl visSerpP initVisibility)).urls_found =
      (allMatches serps).filterMap urlOfMatch := by
    rw [serpsP_urls]
    rfl
  refine ⟨_, rfl, hu, ?_⟩
  show ((serps.foldl visSerpP initVisibility)).urls_found.length ≤
    ((serps.foldl visSerpP initVisibility)).total_appearances
  rw [hu, serpsP_total]
  calc ((allMatches serps).filterMap urlOfMatch).length
      ≤ (allMatches serps).length := List.length_filterMap_le _ _
    _ = initVisibility.total_appearances + (allMatches serps).length := by
        rw [show initVisibility.total_appearances = 0 from rfl]
        omega

/-- Witness for the amended C4 at a concrete batch where one match has a link
and one has none. -/
theorem spec_C4_amended_witness :
    NoNullLinks [cex3Serp] ∧
    ∃ v : BrandVisibility, analyze_brand_visibility [cex3Serp] = .ok v ∧
      v.urls_found = (allMatches [cex3Serp]).filterMap urlOfMatch ∧
      v.urls_found.length ≤ v.total_appearances :=
  ⟨by decide, spec_C4_amended [cex3Serp] (by decide)⟩

/-- C7: the brand-visibility counters of any successfully produced audit
satisfy `queries_with_brand ≤ total_queries` and
`top_3_appearances ≤ top_10_appearances ≤ total_appearances`. -/
theorem spec_C7 (gen : SampleData → Except String String) (now : String)
    (serps : List Serp) (a : Audit) (hn : NoNullLinks serps)
    (h : analyze_serp_batch gen now serps = .ok a) :
    a.brand_visibility.queries_with_brand ≤ a.metadata.total_queries ∧
    a.brand_visibility.top_3_appearances ≤ a.brand_visibility.top_10_appearances ∧
    a.brand_visibility.top_10_appearances ≤ a.brand_visibility.total_appearances := by
  rw [analyze_serp_batch, analyze_brand_visibility_ok serps hn] at h
  injection h with h
  subst h
  refine ⟨?_, ?_, ?_⟩
  · show (serps.foldl visSerpP initVisibility).queries_with_brand ≤ serps.length
    rw [serpsP_queries]
    calc initVisibility.queries_with_brand +
          (serps.filter (fun s => (orgList s).any isBrandResult)).length
        = (serps.filter (fun s => (orgList s).any isBrandResult)).length := by
          rw [show initVisibility.queries_with_brand = 0 from rfl]
          omega
      _ ≤ serps.length := List.length_filter_le _ _
  · show (serps.foldl visSerpP initVisibility).top_3_appearances ≤
      (serps.foldl visSerpP initVisibility).top_10_appearances
    rw [serpsP_top3, serpsP_top10]
    have hmono := length_filter_mono
      (fun p : Serp × OrganicResult => decide (rPos p.2 ≤ 3))
      (fun p : Serp × OrganicResult => decide (rPos p.2 ≤ 10))
      (allMatches serps)
      (by intro x hx; simp only [decide_eq_true_eq] at hx ⊢; omega)
    have h3 : initVisibility.top_3_appearances = 0 := rfl
    have h10 : initVisibility.top_10_appearances = 0 := rfl
    omega
  · show (serps.foldl visSerpP initVisibility).top_10_appearances ≤
      (serps.foldl visSerpP initVisibility).total_appearances
    rw [serpsP_top10, serpsP_total]
    have hle := List.length_filter_le
      (fun p : Serp × OrganicResult => decide (rPos p.2 ≤ 10)) (allMatches serps)
    have h10 : initVisibility.top_10_appearances = 0 := rfl
    have htot : initVisibility.total_appearances = 0 := rfl
    omega

/-- Witness for C7 at a concrete one-record batch. -/
theorem spec_C7_witness :
    NoNullLinks [demoSerp] ∧
    ∃ a : Audit, analyze_serp_batch genOk "t" [demoSerp] = .ok a ∧
      (a.brand_visibility.queries_with_brand ≤ a.metadata.total_queries ∧
       a.brand_visibility.top_3_appearances ≤ a.brand_visibility.top_10_appearances ∧
       a.brand_visibility.top_10_appearances ≤ a.brand_visibility.total_appearances) := by
  have hnn : NoNullLinks [demoSerp] := by decide
  have hex : ∃ a : Audit, analyze_serp_batch genOk "t" [demoSerp] = .ok a := by
    rw [analyze_serp_batch, analyze_brand_visibility_ok [demoSerp] hnn]
    exact ⟨_, rfl⟩
  obtain ⟨a, ha⟩ := hex
  exact ⟨hnn, a, ha, spec_C7 genOk "t" [demoSerp] a hnn ha⟩

/-- C9: when the insight generator fails, `analyze_serp_batch` still returns
an audit whose `ai_insights` is the error marker and whose five analyzer
outputs coincide with those of a run whose generator succeeds. -/
theorem spec_C9 (gen genOther : SampleData → Except String String)
    (now nowOther : String) (serps : List Serp) (emsg : String) (aOther : Audit)
    (hfail : gen (buildSampleData serps) = .error emsg)
    (hOther : analyze_serp_batch genOther nowOther serps = .ok aOther) :
    ∃ a : Audit, analyze_serp_batch gen now serps = .ok a ∧
      a.ai_insights = .aiError emsg ∧
      a.brand_visibility = aOther.brand_visibility ∧
      a.competitor_analysis = aOther.competitor_analysis ∧
      a.geo_analysis = aOther.geo_analysis ∧
      a.content_insights = aOther.content_insights ∧
      a.serp_features = aOther.serp_features := by
  rw [analyze_serp_batch] at hOther ⊢
  cases hbv : analyze_brand_visibility serps with
  | error e =>
    rw [hbv] at hOther
    cases hOther
  | ok bv =>
    rw [hbv] at hOther
    injection hOther with hOther
    subst hOther
    refine ⟨_, rfl, ?_, rfl, rfl, rfl, rfl, rfl⟩
    show generate_ai_insights gen serps = .aiError emsg
    rw [generate_ai_insights, hfail]

/-- Witness for C9: a failing generator against a succeeding one on the empty
batch. -/
theorem spec_C9_witness :
    genFail (buildSampleData []) = .error "network error" ∧
    ∃ a : Audit, analyze_serp_batch genFail "t" [] = .ok a ∧
      a.ai_insights = .aiError "network error" := by
  refine ⟨rfl, ?_⟩
  obtain ⟨a, ha, hai, _⟩ :=
    spec_C9 genFail genOk "t" "t" [] "network error" _ rfl rfl
  exact ⟨a, ha, hai⟩

/-- C8: content-insight frequency ranking is stable (["a","b","a"] ranks
[("a",2),("b",1)] in that order), and the top lists are present exactly when
the collected sequence is nonempty. -/
theorem spec_C8 (serps : List Serp) :
    (analyze_content_insights [c8Serp]).top_related_searches =
      some [(some "a", 2), (some "b", 1)] ∧
    ((analyze_content_insights serps).top_related_searches = none ↔
      serps.flatMap (fun s => s.related_searches.getD []) = []) ∧
    ((analyze_content_insights serps).top_questions = none ↔
      serps.flatMap (fun s => s.people_also_ask.getD []) = []) := by
  refine ⟨by decide, ?_, ?_⟩
  · simp only [analyze_content_insights]
    by_cases hrel : serps.flatMap (fun s => s.related_searches.getD []) = []
    · simp [hrel]
    · simp [hrel]
  · simp only [analyze_content_insights]
    by_cases hpaa : serps.flatMap (fun s => s.people_also_ask.getD []) = []
    · simp [hpaa]
    · simp [hpaa]

/-- Witness for C8: the concrete ranking plus the absent `top_questions` key
on the same batch, obtained through the presence criterion. -/
theorem spec_C8_witness :
    (analyze_content_insights [c8Serp]).top_related_searches =
      some [(some "a", 2), (some "b", 1)] ∧
    (analyze_content_insights [c8Serp]).top_questions = none := by
  have h := spec_C8 [c8Serp]
  exact ⟨h.1, (h.2.2).mpr (by decide)⟩

/-- C6: competitor tallies sum to the number of organic results with a truthy
link; `top_competitors` has at most 20 entries, is sorted descending by
appearances with ties kept in first-encounter order (the counter lists
domains in first-encounter order and the sort preserves every equal-count
subsequence), and each entry carries the count, sentinel-included mean,
minimum and maximum of its domain's collected positions. -/
theorem spec_C6 (serps : List Serp) :
    sumCounts (compTallies serps).1 = (allLinks serps).length ∧
    (analyze_competitors serps).top_competitors.length ≤ 20 ∧
    (analyze_competitors serps).top_competitors.Pairwise
      (fun a b => b.appearances ≤ a.appearances) ∧
    (∀ n, (sortDesc (compTallies serps).1).filter (fun e => decide (e.2 = n)) =
      (compTallies serps).1.filter (fun e => decide (e.2 = n))) ∧
    (compTallies serps).1.map Prod.fst =
      firstOccur [] ((allLinks serps).map (fun lp => netloc lp.1)) ∧
    ∀ c ∈ (analyze_competitors serps).top_competitors,
      c.appearances = (domainPositions serps c.domain).length ∧
      c.average_position = listMeanQ (domainPositions serps c.domain) ∧
      c.best_position = listMin (domainPositions serps c.domain) ∧
      c.worst_position = listMax (domainPositions serps c.domain) := by
  refine ⟨?_, ?_, ?_, ?_, ?_, ?_⟩
  · rw [compTallies_flat]
    have hs := tally_sum (allLinks serps) ([], [])
    simpa [sumCounts] using hs
  · simp only [analyze_competitors, most_common]
    rw [List.length_map]
    exact List.length_take_le _ _
  · simp only [analyze_competitors, most_common]
    rw [List.pairwise_map]
    have hsorted : (((sortDesc (compTallies serps).1).take 20)).Pairwise
        (fun a b => b.2 ≤ a.2) :=
      List.Pairwise.sublist (List.take_sublist 20 _) (sortDesc_sorted _)
    exact hsorted.imp (fun hab => hab)
  · intro n
    exact sortDesc_filter _ n
  · rw [compTallies_flat]
    have hk := tally_keys (allLinks serps) ([], [])
    simpa using hk
  · intro c hc
    obtain ⟨h1, h2, h3, h4, _⟩ := top_competitor_entry serps c hc
    exact ⟨h1, h2, h3, h4⟩

/-- Witness for C6 at a concrete two-domain batch. -/
theorem spec_C6_witness :
    sumCounts (compTallies [demoSerp]).1 = 2 ∧
    (analyze_competitors [demoSerp]).top_competitors.length ≤ 20 := by
  have h := spec_C6 [demoSerp]
  refine ⟨?_, h.2.1⟩
  rw [h.1]
  decide

/-- C10: every `top_competitors` entry counts exactly the positions collected
for its domain, its best/worst positions are that list's minimum/maximum, and
`best_position ≤ average_position ≤ worst_position`. -/
theorem spec_C10 (serps : List Serp) (c : Competitor)
    (hc : c ∈ (analyze_competitors serps).top_competitors) :
    c.appearances = (domainPositions serps c.domain).length ∧
    c.best_position = listMin (domainPositions serps c.domain) ∧
    c.worst_position = listMax (domainPositions serps c.domain) ∧
    (c.best_position : ℚ) ≤ c.average_position ∧
    c.average_position ≤ (c.worst_position : ℚ) := by
  obtain ⟨happ, havg, hbest, hworst, hone⟩ := top_competitor_entry serps c hc
  have hne : domainPositions serps c.domain ≠ [] := by
    intro hnil
    rw [hnil] at happ
    simp at happ
    omega
  refine ⟨happ, hbest, hworst, ?_, ?_⟩
  · rw [havg, hbest]
    exact listMin_le_mean _ hne
  · rw [havg, hworst]
    exact mean_le_listMax _ hne

/-- Witness for C10: the first competitor entry of a concrete batch. -/
theorem spec_C10_witness :
    ∃ c ∈ (analyze_competitors [demoSerp]).top_competitors,
      c.appearances = (domainPositions [demoSerp] c.domain).length ∧
      (c.best_position : ℚ) ≤ c.average_position := by
  have hmem0 : ("turismotorino.org", 1) ∈ most_common 20 (compTallies [demoSerp]).1 := by
    decide
  have hmem : (fun dc : String × Nat =>
      { domain := dc.1, appearances := dc.2,
        average_position := listMeanQ (plookup (compTallies [demoSerp]).2 dc.1),
        best_position := listMin (plookup (compTallies [demoSerp]).2 dc.1),
        worst_position := listMax (plookup (compTallies [demoSerp]).2 dc.1) :
          Competitor }) ("turismotorino.org", 1) ∈
      (analyze_competitors [demoSerp]).top_competitors := by
    simp only [analyze_competitors]
    exact List.mem_map_of_mem _ hmem0
  refine ⟨_, hmem, (spec_C10 [demoSerp] _ hmem).1, (spec_C10 [demoSerp] _ hmem).2.2.2.1⟩
